import Mathlib

/-!
Verification development for the autonomous debugging agent
(`src/langest/agents/autonomous_debugger.py`).

The Python source is shallowly embedded: filesystem state is an explicit
value threaded through the functions, the external process runner and the
LLM diagnosis oracle are abstract parameters, and the regex heuristics of
the context extractor are modelled by direct backtracking matchers that
follow Python `re` semantics (leftmost scan, greedy character classes with
backtracking, first-alternative preference).
-/

namespace Langest

/-- The single-quote character, used by the source's f-strings and regexes. -/
def squote : Char := Char.ofNat 39

/-- Single-quote as a one-character string. -/
def sq : String := String.singleton squote

/-- Python `\w` on ASCII input: letters, digits and underscore. -/
def isWordChar (c : Char) : Bool := c.isAlphanum || c = '_'

/-- The character class `[\./\w-]` used by the path-token regexes. -/
def isTokChar (c : Char) : Bool := c = '.' || c = '/' || c = '-' || isWordChar c

/-- Python `s.startswith(pre)`, via the character lists so that concrete
instances evaluate inside the kernel. -/
def strStartsWith (s pre : String) : Bool := pre.data.isPrefixOf s.data

/-- Split a character list at `/` separators. -/
def splitSlashAux (cur : List Char) : List Char → List String
  | [] => [String.mk cur.reverse]
  | c :: rest =>
      if c = '/' then String.mk cur.reverse :: splitSlashAux [] rest
      else splitSlashAux (c :: cur) rest

/-- Split a path string at `/` separators. -/
def splitSlash (s : String) : List String := splitSlashAux [] s.data

/-- Python `str.strip()` on ASCII input: drop whitespace at both ends. -/
def trimAscii (s : String) : String :=
  String.mk (((s.data.dropWhile Char.isWhitespace).reverse.dropWhile
    Char.isWhitespace).reverse)

/-- One step of lexical path normalisation: empty and `.` segments are
dropped, `..` removes the previous segment (clamped at the root). -/
def normStep (acc : List String) (seg : String) : List String :=
  if seg = "" || seg = "." then acc
  else if seg = ".." then acc.dropLast
  else acc ++ [seg]

/-- Lexical normalisation of an absolute path, as `os.path.normpath` does
for absolute inputs (no symlink resolution; the model has no symlinks). -/
def normPath (p : String) : String :=
  "/" ++ String.intercalate "/" ((splitSlash p).foldl normStep [])

/-- `os.path.abspath`: resolve against the process working directory and
normalise. -/
def abspath (cwd p : String) : String :=
  normPath (if strStartsWith p "/" then p else cwd ++ "/" ++ p)

/-- `os.path.join(root, p)` for the cases arising here: an absolute second
argument discards the first, otherwise the two are joined with `/`. -/
def joinPath (root p : String) : String :=
  if strStartsWith p "/" then p else root ++ "/" ++ p

/-- Substring test on character lists (Python's `in` on strings). -/
def listContains (pat : List Char) : List Char → Bool
  | [] => pat.isEmpty
  | c :: rest => pat.isPrefixOf (c :: rest) || listContains pat rest

/-- Python `pat in s` for strings. -/
def strContains (s pat : String) : Bool := listContains pat.data s.data

/-- Deduplication keeping first occurrences; models membership in the
Python `set` collections of the extractor (iteration order is fixed to
insertion order, which is what a single process observes). -/
def dedupAux (seen : List String) : List String → List String
  | [] => []
  | x :: xs => if seen.contains x then dedupAux seen xs else x :: dedupAux (x :: seen) xs

/-- Deduplicate a list of strings, keeping first occurrences. -/
def dedup (l : List String) : List String := dedupAux [] l

/-- Python `l[-n:]`: the trailing `n` elements. -/
def lastN {α : Type} (n : Nat) (l : List α) : List α := l.drop (l.length - n)

/-- The modelled filesystem: a partial map from normalised absolute paths
to file contents, and one to directory child-name listings. -/
structure FS where
  files : String → Option String
  dirs : String → Option (List String)

/-- `os.path.exists` on a normalised absolute path. -/
def FS.pathExists (fs : FS) (p : String) : Bool :=
  (fs.files p).isSome || (fs.dirs p).isSome

/-- `os.path.isdir` on a normalised absolute path. -/
def FS.isdir (fs : FS) (p : String) : Bool := (fs.dirs p).isSome

/-- The empty filesystem. -/
def emptyFS : FS := ⟨fun _ => none, fun _ => none⟩

/-- The dictionary built by `execute_command` (source lines 81-119). -/
structure CommandResult where
  command : String
  stdout : String
  stderr : String
  return_code : Int
  success : Bool
  cwd : String
deriving DecidableEq

/-- Outcome of the underlying `subprocess.run` call: normal completion,
`subprocess.TimeoutExpired`, or any other exception with its `str(e)`. -/
inductive ExecOutcome
  | completed (stdout stderr : String) (returncode : Int)
  | timedOut
  | failed (msg : String)
deriving DecidableEq

/-- `AutonomousDebuggingAgent.execute_command` (source lines 67-119): the
subprocess outcome is mapped to a structured result; nothing escapes. -/
def execute_command (o : ExecOutcome) (command : String) (cwd : Option String)
    (timeoutSecs : Nat) (processCwd : String) : CommandResult :=
  match o with
  | .completed out err code =>
      ⟨command, out, err, code, code == 0, cwd.getD processCwd⟩
  | .timedOut =>
      ⟨command, "",
        "Command timed out after " ++ toString timeoutSecs ++ " seconds",
        124, false, cwd.getD processCwd⟩
  | .failed msg =>
      ⟨command, "", msg, 1, false, cwd.getD processCwd⟩

/-- The restricted-access marker returned by `read_file`. -/
def restrictedFileMsg (fp : String) : String :=
  "ERROR: Access to file " ++ fp ++ " is restricted outside the project directory."

/-- The restricted-access marker returned by `list_files`. -/
def restrictedDirMsg (dp : String) : String :=
  "ERROR: Access to directory " ++ dp ++ " is restricted outside the project directory."

/-- `AutonomousDebuggingAgent.read_file` (source lines 137-156). The
containment check is the source's `abs_file_path.startswith(abs_project_path)`.
Opening a directory raises `IsADirectoryError`, caught by the generic
handler; the model renders that reason as a fixed string. -/
def read_file (cwd : String) (fs : FS) (file_path project_path : String) : String :=
  let abs_project_path := abspath cwd project_path
  let abs_file_path := abspath cwd file_path
  if !(strStartsWith abs_file_path abs_project_path) then
    restrictedFileMsg file_path
  else
    match fs.files (normPath abs_file_path) with
    | some content => content
    | none =>
        if (fs.dirs (normPath abs_file_path)).isSome then
          "ERROR: Could not read file " ++ file_path ++ ". Reason: Is a directory"
        else
          "ERROR: File not found at " ++ file_path

/-- `AutonomousDebuggingAgent.list_files` (source lines 158-179). Same
`startswith` containment check; a non-directory (including a missing path)
yields the not-a-directory marker; children that are directories get a
trailing slash. -/
def list_files (cwd : String) (fs : FS) (dir_path project_path : String) : String :=
  let abs_project_path := abspath cwd project_path
  let abs_dir_path := abspath cwd dir_path
  if !(strStartsWith abs_dir_path abs_project_path) then
    restrictedDirMsg dir_path
  else
    match fs.dirs (normPath abs_dir_path) with
    | none => "ERROR: Path is not a directory: " ++ dir_path
    | some children =>
        let listing := children.map (fun f =>
          if fs.isdir (normPath (joinPath abs_dir_path f)) then f ++ "/" else f)
        "Contents of " ++ dir_path ++ ":\n- " ++ String.intercalate "\n- " listing

/-! Regex heuristics of the context extractor (source lines 354-400).
Each Python regex is modelled by a direct matcher with the same
backtracking behaviour: the greedy character class tries the longest run
first and shortens it until the rest of the pattern matches, and an
alternation prefers its earlier branches. `findall`/`search` scan left to
right and continue after a match / stop at the first match. -/

/-- Alternatives of `\.(?:js|go|py|json|yaml|yml|toml|mod|sum|html|css|ts|tsx|jsx|test\.js)`
in the source's order (Python tries them left to right). -/
def extList : List String :=
  ["js", "go", "py", "json", "yaml", "yml", "toml", "mod", "sum",
   "html", "css", "ts", "tsx", "jsx", "test.js"]

/-- First alternative of the extension alternation matching at the head of
the character list. -/
def firstExtAt (cs : List Char) : Option String :=
  extList.find? (fun e => e.data.isPrefixOf cs)

/-- Backtracking for `[\./\w-]+\.(?:ext|...)`: try class-part lengths from
the greedy maximum downwards; at each length the next character must be `.`
followed by one of the extension alternatives. Returns the total match
length on success. -/
def tryLens (cs : List Char) : Nat → Option Nat
  | 0 => none
  | n + 1 =>
    if cs.getD (n + 1) ' ' = '.' then
      match firstExtAt (cs.drop (n + 2)) with
      | some e => some (n + 2 + e.length)
      | none => tryLens cs n
    else tryLens cs n

/-- Attempt the file-token regex at the head of `cs`; on success return the
match length and the matched token. -/
def matchFrom (cs : List Char) : Option (Nat × String) :=
  let m := (cs.takeWhile isTokChar).length
  (tryLens cs m).map (fun len => (len, String.mk (cs.take len)))

/-- Left-to-right non-overlapping scan of `re.findall` for the file-token
regex (source line 361); `fuel` bounds the recursion by the input length. -/
def findTokensAux : Nat → List Char → List String
  | 0, _ => []
  | _, [] => []
  | fuel + 1, c :: rest =>
    match matchFrom (c :: rest) with
    | some (len, tok) => tok :: findTokensAux fuel ((c :: rest).drop len)
    | none => findTokensAux fuel rest

/-- All file-path tokens mentioned in the failure output
(`re.findall(r'[\./\w-]+\.(?:js|go|...)', error_output)`). -/
def findTokens (s : String) : List String := findTokensAux s.length s.data

/-- Backtracking for the group of `>\s*([\w\./ -]+\.log)`: class-part
lengths from the greedy maximum downwards, requiring `.` then `log`. -/
def tryLogLens (rest : List Char) : Nat → Option Nat
  | 0 => none
  | n + 1 =>
    if rest.getD (n + 1) ' ' = '.' && (rest.drop (n + 2)).take 3 = ['l', 'o', 'g'] then
      some (n + 1)
    else tryLogLens rest n

/-- Attempt the log-file pattern just after a `>` character: skip
whitespace, then match `[\w\./ -]+\.log` and return the captured group. -/
def matchLogAt (cs : List Char) : Option String :=
  let rest := cs.dropWhile Char.isWhitespace
  let m := (rest.takeWhile isTokChar).length
  (tryLogLens rest m).map (fun len => String.mk (rest.take (len + 4)))

/-- `re.search(r'>\s*([\w\./ -]+\.log)', s)`: first match wins. -/
def searchLogAux : Nat → List Char → Option String
  | 0, _ => none
  | _, [] => none
  | fuel + 1, c :: rest =>
    if c = '>' then
      match matchLogAt rest with
      | some g => some g
      | none => searchLogAux fuel rest
    else searchLogAux fuel rest

/-- The captured log-file name of the first `> <name>.log` redirect in the
target command, if any (source line 365). -/
def searchLogFile (s : String) : Option String := searchLogAux s.length s.data

/-- The log-file heuristic (source lines 364-375): a log redirect in the
target command is read relative to `backend/` or `frontend/` when the
command `cd`s into that directory, otherwise it is ignored. -/
def logFilePath (target_command : String) : Option String :=
  match searchLogFile target_command with
  | none => none
  | some name =>
      if strContains target_command "cd backend" then some (joinPath "backend" name)
      else if strContains target_command "cd frontend" then some (joinPath "frontend" name)
      else none

/-- Branch `directory\s+'([^']+)'` of the directory-mention regex: literal
word, at least one whitespace, then a quoted non-empty segment. Returns the
captured group and the total match length. -/
def dirBranch1 (cs : List Char) : Option (String × Nat) :=
  if ['d', 'i', 'r', 'e', 'c', 't', 'o', 'r', 'y'].isPrefixOf cs then
    let after := cs.drop 9
    let w := (after.takeWhile Char.isWhitespace).length
    if w = 0 then none
    else
      match after.drop w with
      | [] => none
      | q :: rest2 =>
        if q = squote then
          let content := rest2.takeWhile (fun c => c ≠ squote)
          if content.length = 0 then none
          else if (rest2.drop content.length).head? = some squote then
            some (String.mk content, 9 + w + 1 + content.length + 1)
          else none
        else none
  else none

/-- Backtracking for the group of `'([\./\w-]+/)'`: class-part lengths from
the greedy maximum downwards, requiring `/` then the closing quote. -/
def tryDirLens (cs2 : List Char) : Nat → Option Nat
  | 0 => none
  | n + 1 =>
    if cs2.getD (n + 1) ' ' = '/' && cs2.getD (n + 2) ' ' = squote then
      some (n + 1)
    else tryDirLens cs2 n

/-- Branch `'([\./\w-]+/)'` of the directory-mention regex: a quoted
class-run whose last character is a slash. -/
def dirBranch2 (cs : List Char) : Option (String × Nat) :=
  match cs with
  | [] => none
  | c :: rest =>
    if c = squote then
      let m := (rest.takeWhile isTokChar).length
      match tryDirLens rest (m - 1) with
      | some p => some (String.mk (rest.take (p + 1)), 1 + (p + 1) + 1)
      | none => none
    else none

/-- `re.findall(r"directory\s+'([^']+)'|'([\./\w-]+/)'", s)` (source line
379), collecting the non-empty group of each match in scan order. -/
def findDirsAux : Nat → List Char → List String
  | 0, _ => []
  | _, [] => []
  | fuel + 1, c :: rest =>
    match dirBranch1 (c :: rest) with
    | some (g, len) => g :: findDirsAux fuel ((c :: rest).drop len)
    | none =>
      match dirBranch2 (c :: rest) with
      | some (g, len) => g :: findDirsAux fuel ((c :: rest).drop len)
      | none => findDirsAux fuel rest

/-- All quoted directory mentions in the failure output. -/
def findDirMentions (s : String) : List String := findDirsAux s.length s.data

/-- The `files_to_read` set of the extractor (source lines 358-375):
file-path tokens of the failure output plus the log-file heuristic result,
deduplicated. -/
def filesToRead (target_command error_output : String) : List String :=
  dedup (findTokens error_output ++
    (match logFilePath target_command with | some p => [p] | none => []))

/-- The `dirs_to_list` set (source lines 377-380): stripped non-empty
groups of the directory-mention regex, deduplicated. -/
def dirsToList (error_output : String) : List String :=
  dedup ((findDirMentions error_output).map trimAscii)

/-- Concatenation of a list of strings, as the source's `+=` accumulation
loop produces. -/
def concatList : List String → String
  | [] => ""
  | s :: rest => s ++ concatList rest

/-- The fixed opening line of the iteration context (source line 355). -/
def contextHeader (iteration maxIter : Nat) (target_command : String) : String :=
  "This is debugging iteration " ++ toString (iteration + 1) ++ "/" ++
    toString maxIter ++ " for command: " ++ sq ++ target_command ++ sq

/-- One rendered file block of the context (source line 389): markers
around the file content truncated to 1000 characters. -/
def renderFileBlock (cwd : String) (fs : FS) (project_path f : String) : String :=
  "--- START OF " ++ f ++ " ---\n" ++
    (read_file cwd fs (joinPath project_path f) project_path).take 1000 ++
    "\n--- END OF " ++ f ++ " ---\n\n"

/-- The file-contents section (source lines 382-390): the header appears
whenever any candidate path was found; each candidate is rendered only if
`os.path.exists` holds for it, otherwise it contributes nothing. -/
def fileSectionText (cwd : String) (fs : FS) (project_path : String)
    (files : List String) : String :=
  if files.isEmpty then ""
  else
    "\n\nRELEVANT FILE CONTENTS (truncated to 1000 chars):\n" ++
      concatList (files.map (fun f =>
        if fs.pathExists (normPath (joinPath project_path f)) then
          renderFileBlock cwd fs project_path f
        else ""))

/-- One rendered directory-listing block of the context (source line 399). -/
def renderDirBlock (cwd : String) (fs : FS) (project_path d : String) : String :=
  "--- START OF " ++ d ++ " LISTING ---\n" ++
    list_files cwd fs (joinPath project_path d) project_path ++
    "\n--- END OF " ++ d ++ " LISTING ---\n\n"

/-- The directory-listings section (source lines 392-400): header whenever
any mention was found; each mention rendered only if `os.path.isdir`. -/
def dirSectionText (cwd : String) (fs : FS) (project_path : String)
    (ds : List String) : String :=
  if ds.isEmpty then ""
  else
    "\n\nDIRECTORY LISTINGS:\n" ++
      concatList (ds.map (fun d =>
        if fs.isdir (normPath (joinPath project_path d)) then
          renderDirBlock cwd fs project_path d
        else ""))

/-- The context-extraction fragment of `debug_until_working` (source lines
354-400): the ContextBundle assembled for the Diagnosis Oracle. -/
def extractContext (cwd : String) (fs : FS) (target_command project_path : String)
    (iteration maxIter : Nat) (error_output : String) : String :=
  contextHeader iteration maxIter target_command ++
    fileSectionText cwd fs project_path (filesToRead target_command error_output) ++
    dirSectionText cwd fs project_path (dirsToList error_output)

/-- A `{path, content}` entry of `files_to_create` / `files_to_update`. -/
structure FileSpec where
  path : String
  content : String
deriving DecidableEq

/-- The solution dictionary consumed by `apply_solution`; missing list keys
of a degraded dictionary read as `[]` through `dict.get(key, [])`. -/
structure Solution where
  root_cause : String
  solution_type : String
  files_to_create : List FileSpec
  files_to_update : List FileSpec
  commands_to_run : List String
deriving DecidableEq

/-- Outcome of one LLM attempt inside `analyze_and_fix_issue`: a parsed
solution, a found-but-invalid JSON text, no JSON-looking text at all, or an
exception from the LLM call itself. -/
inductive ParseOutcome
  | ok (sol : Solution)
  | decodeError
  | noJson
  | invokeError
deriving DecidableEq

/-- Whether an attempt produced a parsed solution. -/
def ParseOutcome.isOk : ParseOutcome → Bool
  | .ok _ => true
  | _ => false

/-- The degraded dictionary returned when parsing fails (source lines
285-289); its missing list keys read as empty lists. -/
def manualAnalysisSolution : Solution :=
  ⟨"Failed to parse AI response", "MANUAL_ANALYSIS", [], [], []⟩

/-- The fallback dictionary when both LLM calls raise (source line 295). -/
def errorSolution : Solution :=
  ⟨"AI analysis failed after multiple attempts.", "ERROR", [], [], []⟩

/-- `AutonomousDebuggingAgent.analyze_and_fix_issue` (source lines 248-295)
as a function of the two attempts' parse outcomes: a decoding error or an
LLM exception on the first attempt leads to a retry; absent JSON returns
the degraded dictionary immediately; after a failed retry the degraded
dictionary is returned, or the error fallback if both calls raised. -/
def analyze_and_fix_issue (o1 o2 : ParseOutcome) : Solution :=
  match o1 with
  | .ok s => s
  | .noJson => manualAnalysisSolution
  | .decodeError =>
      match o2 with
      | .ok s => s
      | .noJson => manualAnalysisSolution
      | .decodeError => manualAnalysisSolution
      | .invokeError => errorSolution
  | .invokeError =>
      match o2 with
      | .ok s => s
      | .noJson => manualAnalysisSolution
      | .decodeError => manualAnalysisSolution
      | .invokeError => errorSolution

/-- `AutonomousDebuggingAgent.write_file` (source lines 121-135): on
success the content is stored at the normalised target path; a failing
write leaves the filesystem unchanged and reports `false`. The directories
created by `makedirs` are not tracked: no claim consults a listing of a
directory created by a write. -/
def write_file (writeFails : String → Bool) (fs : FS) (p c : String) : FS × Bool :=
  if writeFails p then (fs, false)
  else ({ fs with files := fun q => if q = normPath p then some c else fs.files q }, true)

/-- The per-list write loop of `apply_solution`: every entry is attempted
in order regardless of earlier failures; returns the final filesystem, the
conjunction of the write successes, and the trace of attempted writes
(target path, content, success). -/
def applyFiles (writeFails : String → Bool) (project_path : String) (fs : FS) :
    List FileSpec → FS × Bool × List (String × String × Bool)
  | [] => (fs, true, [])
  | f :: rest =>
    let target := joinPath project_path f.path
    let r1 := write_file writeFails fs target f.content
    let r2 := applyFiles writeFails project_path r1.1 rest
    (r2.1, r1.2 && r2.2.1, (target, f.content, r1.2) :: r2.2.2)

/-- Result of `apply_solution`: new filesystem, overall success flag, the
trace of file writes, and the trace of auxiliary commands (command, cwd). -/
structure ApplyResult where
  fs : FS
  ok : Bool
  writes : List (String × String × Bool)
  cmds : List (String × String)

/-- `AutonomousDebuggingAgent.apply_solution` (source lines 297-324):
creates are written first, then updates, each in the given order; a failed
write makes the overall result `false` but stops nothing; afterwards every
auxiliary command runs sequentially with the project root as working
directory, and command failures affect neither the remaining commands nor
the result. -/
def apply_solution (writeFails : String → Bool) (solution : Solution)
    (project_path : String) (fs : FS) : ApplyResult :=
  let rc := applyFiles writeFails project_path fs solution.files_to_create
  let ru := applyFiles writeFails project_path rc.1 solution.files_to_update
  { fs := ru.1
    ok := rc.2.1 && ru.2.1
    writes := rc.2.2 ++ ru.2.2
    cmds := solution.commands_to_run.map (fun c => (c, project_path)) }

/-- One entry of `self.debug_history` (source lines 405-410). -/
structure HistoryEntry where
  iteration : Nat
  command : String
  error : String
  solution : Solution
deriving DecidableEq

/-- What one `analyze_and_fix_issue` call is given: the target command, the
assembled context, and the trailing two history entries serialized into the
prompt (`self.debug_history[-2:]`, source line 184). -/
structure OracleCall where
  command : String
  context : String
  recentHistory : List HistoryEntry
deriving DecidableEq

/-- Trace of one `apply_solution` invocation inside the loop. -/
structure ApplyEvent where
  iteration : Nat
  writes : List (String × String × Bool)
  cmds : List (String × String)
  ok : Bool
deriving DecidableEq

/-- The mutable state a repair session reads and writes: the filesystem,
the agent's `debug_history`, and the traces of oracle calls and apply
invocations (the latter two record what the loop did, for the theorems). -/
structure SessionState where
  fs : FS
  history : List HistoryEntry
  oracleCalls : List OracleCall
  applyEvents : List ApplyEvent

/-- A session state with empty history and traces over a given filesystem. -/
def freshState (fs : FS) : SessionState := ⟨fs, [], [], []⟩

/-- The external world: the result of running a command in a directory at a
given per-session iteration index, the two parse outcomes of the oracle
exchange for a target command at an iteration, and which write targets
fail. -/
structure Env where
  exec : String → String → Nat → CommandResult
  parse : String → Nat → ParseOutcome × ParseOutcome
  writeFails : String → Bool

/-- The iteration loop of `debug_until_working` (source lines 338-419),
with `fuel` the remaining and `i` the current 0-based iteration: run the
target; on success stop with `true`; otherwise extract context, consult the
oracle, append the history entry unconditionally, apply the solution
(recording the invocation), and continue either way. -/
def debug_until_working_aux (env : Env) (target_command project_path cwd : String)
    (maxIter : Nat) : Nat → Nat → SessionState → Bool × SessionState
  | 0, _, st => (false, st)
  | fuel + 1, i, st =>
    let result := env.exec target_command project_path i
    if result.success then (true, st)
    else
      let error_output := result.stderr ++ result.stdout
      let context := extractContext cwd st.fs target_command project_path i maxIter error_output
      let po := env.parse target_command i
      let solution := analyze_and_fix_issue po.1 po.2
      let oc : OracleCall := ⟨target_command, context, lastN 2 st.history⟩
      let hist2 := st.history ++ [⟨i + 1, target_command, result.stderr, solution⟩]
      let ar := apply_solution env.writeFails solution project_path st.fs
      let ev : ApplyEvent := ⟨i + 1, ar.writes, ar.cmds, ar.ok⟩
      debug_until_working_aux env target_command project_path cwd maxIter fuel (i + 1)
        ⟨ar.fs, hist2, st.oracleCalls ++ [oc], st.applyEvents ++ [ev]⟩

/-- `AutonomousDebuggingAgent.debug_until_working` (source lines 326-427):
up to `maxIter` iterations starting from the given session state; returns
whether the target command eventually succeeded, with the state it leaves
behind. -/
def debug_until_working (env : Env) (target_command project_path cwd : String)
    (maxIter : Nat) (st : SessionState) : Bool × SessionState :=
  debug_until_working_aux env target_command project_path cwd maxIter maxIter 0 st

/-- The backend startup probe of `run_comprehensive_debug` (source lines
502-505). -/
def backendStartupCommand : String :=
  "bash -c \"cd backend && nohup go run main.go > backend.log 2>&1 &\" && sleep 5 && curl -f http://localhost:8080/health"

/-- The frontend startup probe of `run_comprehensive_debug` (source lines
516-519). -/
def frontendStartupCommand : String :=
  "bash -c \"cd frontend && BROWSER=none nohup npm start > frontend.log 2>&1 &\" && sleep 15 && curl -f http://localhost:3000"

/-- The checklist result map of `run_comprehensive_debug` (source lines
453-461). -/
structure CompResults where
  backend_build : Bool
  frontend_build : Bool
  dependencies : Bool
  tilt_setup : Bool
  backend_start : Bool
  frontend_start : Bool
  tests : Bool
deriving DecidableEq

/-- `AutonomousDebuggingAgent.run_comprehensive_debug` (source lines
444-539): the fixed checklist is run sequentially, every item
unconditionally, all on the same agent whose `debug_history` (and the
filesystem) is threaded through every session. The port-cleanup step runs
only external kill commands and does not touch the modelled state. -/
def run_comprehensive_debug (env : Env) (project_path cwd : String)
    (maxIter : Nat) (st0 : SessionState) : CompResults × SessionState :=
  let backend_path := joinPath project_path "backend"
  let frontend_path := joinPath project_path "frontend"
  let r1 := debug_until_working env "go mod tidy" backend_path cwd maxIter st0
  let r2 := debug_until_working env "npm install" frontend_path cwd maxIter r1.2
  let dependencies := r1.1 && r2.1
  let r3 := debug_until_working env "cd backend && go build" project_path cwd maxIter r2.2
  let r4 := debug_until_working env "cd frontend && npm run build" project_path cwd maxIter r3.2
  let r5 := debug_until_working env "tilt doctor" project_path cwd maxIter r4.2
  let r6 := debug_until_working env backendStartupCommand project_path cwd maxIter r5.2
  let r7 := debug_until_working env frontendStartupCommand project_path cwd maxIter r6.2
  let r8 := debug_until_working env "make test" project_path cwd maxIter r7.2
  (⟨r3.1, r4.1, dependencies, r5.1, r6.1, r7.1, r8.1⟩, r8.2)

/-! Auxiliary definitions used by the theorems. -/

/-- The spec's notion of project-root containment (spec section 4.2): a
path is inside the root iff it is the root itself or lies below
`root ++ "/"`. This definition follows the spec's words and is compared
with the `startswith` test the source actually performs. -/
def specInsideRoot (root p : String) : Bool :=
  p = root || strStartsWith p (root ++ "/")

/-- The solution the oracle exchange yields at iteration `j` of a session
for a target command, as determined by the environment's parse outcomes. -/
def failSolution (env : Env) (target_command : String) (j : Nat) : Solution :=
  analyze_and_fix_issue (env.parse target_command j).1 (env.parse target_command j).2

/-- The history entry appended by a failing iteration `j` (0-based). -/
def failEntry (env : Env) (target_command project_path : String) (j : Nat) : HistoryEntry :=
  ⟨j + 1, target_command, (env.exec target_command project_path j).stderr,
    failSolution env target_command j⟩

/-- The apply trace recorded by a failing iteration `j` (0-based); the
trace of `apply_solution` does not depend on the filesystem it runs on. -/
def failApplyEvent (env : Env) (target_command project_path : String) (j : Nat) : ApplyEvent :=
  ⟨j + 1,
    ((failSolution env target_command j).files_to_create ++
        (failSolution env target_command j).files_to_update).map
      (fun f => (joinPath project_path f.path, f.content,
        !env.writeFails (joinPath project_path f.path))),
    (failSolution env target_command j).commands_to_run.map (fun c => (c, project_path)),
    ((failSolution env target_command j).files_to_create ++
        (failSolution env target_command j).files_to_update).all
      (fun f => !env.writeFails (joinPath project_path f.path))⟩

/-- An environment in which every command fails with stderr `boom`, the
oracle response never contains JSON, and all writes succeed. -/
def allFailEnv : Env :=
  ⟨fun c w _ => ⟨c, "", "boom", 1, false, w⟩,
   fun _ _ => (ParseOutcome.noJson, ParseOutcome.noJson),
   fun _ => false⟩

/-! Helper lemmas. -/

/-- Range-map shift: peeling the first index off an offset enumeration. -/
theorem rangeShift {α : Type} (f : Nat → α) (n i : Nat) :
    (List.range (n + 1)).map (fun k => f (i + k)) =
      f i :: (List.range n).map (fun k => f (i + 1 + k)) := by
  have h : ((fun k => f (i + k)) ∘ Nat.succ) = fun k => f (i + 1 + k) := by
    funext k
    show f (i + (k + 1)) = f (i + 1 + k)
    congr 1
    omega
  rw [List.range_succ_eq_map, List.map_cons, List.map_map, h, Nat.add_zero]

/-- Concatenating blocks that are empty for filtered-out elements equals
concatenating over the filtered list. -/
theorem concatList_map_ite_filter {α : Type} (p : α → Bool) (g : α → String) :
    ∀ l : List α,
      concatList (l.map (fun x => if p x then g x else "")) =
        concatList ((l.filter p).map g) := by
  intro l
  induction l with
  | nil => rfl
  | cons x xs ih =>
      cases hp : p x with
      | false =>
          show (if p x then g x else "") ++ _ = _
          rw [hp, List.filter_cons, hp]
          simpa using ih
      | true =>
          show (if p x then g x else "") ++ _ = _
          rw [hp, List.filter_cons, hp]
          simp only [if_true, List.map_cons]
          show g x ++ _ = g x ++ _
          rw [ih]

/-- The write trace and success flag of `applyFiles`: every entry appears
in order with its own success, and the flag is the conjunction. -/
theorem applyFiles_trace (wf : String → Bool) (project_path : String) :
    ∀ (l : List FileSpec) (fs : FS),
      (applyFiles wf project_path fs l).2.2 =
        l.map (fun f => (joinPath project_path f.path, f.content,
          !wf (joinPath project_path f.path))) ∧
      (applyFiles wf project_path fs l).2.1 =
        l.all (fun f => !wf (joinPath project_path f.path)) := by
  intro l
  induction l with
  | nil => intro fs; exact ⟨rfl, rfl⟩
  | cons f rest ih =>
      intro fs
      cases hw : wf (joinPath project_path f.path) <;>
        simp [applyFiles, write_file, hw, ih]

/-- Trace-level characterisation of `apply_solution`: writes are creates
then updates in order, the success flag is the conjunction of the write
successes, and every auxiliary command is recorded against the project
root regardless of any failure. -/
theorem apply_solution_trace (wf : String → Bool) (solution : Solution)
    (project_path : String) (fs : FS) :
    (apply_solution wf solution project_path fs).writes =
      (solution.files_to_create ++ solution.files_to_update).map
        (fun f => (joinPath project_path f.path, f.content,
          !wf (joinPath project_path f.path))) ∧
    (apply_solution wf solution project_path fs).ok =
      (solution.files_to_create ++ solution.files_to_update).all
        (fun f => !wf (joinPath project_path f.path)) ∧
    (apply_solution wf solution project_path fs).cmds =
      solution.commands_to_run.map (fun c => (c, project_path)) := by
  simp only [apply_solution]
  refine ⟨?_, ?_, trivial⟩
  · rw [List.map_append,
      (applyFiles_trace wf project_path solution.files_to_create fs).1,
      (applyFiles_trace wf project_path solution.files_to_update _).1]
  · rw [List.all_append,
      (applyFiles_trace wf project_path solution.files_to_create fs).2,
      (applyFiles_trace wf project_path solution.files_to_update _).2]

/-- A degraded oracle exchange (neither attempt parses) yields one of the
two degraded dictionaries. -/
theorem analyze_degraded (o1 o2 : ParseOutcome)
    (h1 : o1.isOk = false) (h2 : o2.isOk = false) :
    analyze_and_fix_issue o1 o2 = manualAnalysisSolution ∨
    analyze_and_fix_issue o1 o2 = errorSolution := by
  cases o1 <;> cases o2 <;>
    simp_all [ParseOutcome.isOk, analyze_and_fix_issue]

/-- Under an always-failing target command the loop returns `false`. -/
theorem debug_aux_fail_false (env : Env) (target_command project_path cwd : String)
    (maxIter : Nat)
    (hfail : ∀ j, (env.exec target_command project_path j).success = false) :
    ∀ (fuel i : Nat) (st : SessionState),
      (debug_until_working_aux env target_command project_path cwd maxIter fuel i st).1 =
        false := by
  intro fuel
  induction fuel with
  | zero => intro i st; rfl
  | succ n ih =>
      intro i st
      simp only [debug_until_working_aux, hfail i, Bool.false_eq_true, if_false]
      exact ih (i + 1) _

/-- Under an always-failing target command the loop appends exactly one
history entry per iteration, in iteration order. -/
theorem debug_aux_fail_history (env : Env) (target_command project_path cwd : String)
    (maxIter : Nat)
    (hfail : ∀ j, (env.exec target_command project_path j).success = false) :
    ∀ (fuel i : Nat) (st : SessionState),
      (debug_until_working_aux env target_command project_path cwd maxIter fuel i st).2.history =
        st.history ++ (List.range fuel).map
          (fun k => failEntry env target_command project_path (i + k)) := by
  intro fuel
  induction fuel with
  | zero => intro i st; simp [debug_until_working_aux]
  | succ n ih =>
      intro i st
      simp only [debug_until_working_aux, hfail i, Bool.false_eq_true, if_false]
      rw [ih (i + 1) _]
      rw [rangeShift (failEntry env target_command project_path) n i]
      simp [failEntry, failSolution, List.append_assoc]

/-- Under an always-failing target command the loop performs one oracle
call per iteration, each for the target command. -/
theorem debug_aux_fail_calls (env : Env) (target_command project_path cwd : String)
    (maxIter : Nat)
    (hfail : ∀ j, (env.exec target_command project_path j).success = false) :
    ∀ (fuel i : Nat) (st : SessionState),
      (debug_until_working_aux env target_command project_path cwd maxIter fuel i st).2.oracleCalls.map
          OracleCall.command =
        st.oracleCalls.map OracleCall.command ++ List.replicate fuel target_command := by
  intro fuel
  induction fuel with
  | zero => intro i st; simp [debug_until_working_aux]
  | succ n ih =>
      intro i st
      simp only [debug_until_working_aux, hfail i, Bool.false_eq_true, if_false]
      rw [ih (i + 1) _]
      simp [List.replicate_succ, List.append_assoc]

/-- Under an always-failing target command the loop records one apply
invocation per iteration, whose trace is determined by the oracle solution
of that iteration alone. -/
theorem debug_aux_fail_events (env : Env) (target_command project_path cwd : String)
    (maxIter : Nat)
    (hfail : ∀ j, (env.exec target_command project_path j).success = false) :
    ∀ (fuel i : Nat) (st : SessionState),
      (debug_until_working_aux env target_command project_path cwd maxIter fuel i st).2.applyEvents =
        st.applyEvents ++ (List.range fuel).map
          (fun k => failApplyEvent env target_command project_path (i + k)) := by
  intro fuel
  induction fuel with
  | zero => intro i st; simp [debug_until_working_aux]
  | succ n ih =>
      intro i st
      simp only [debug_until_working_aux, hfail i, Bool.false_eq_true, if_false]
      rw [ih (i + 1) _]
      rw [rangeShift (failApplyEvent env target_command project_path) n i]
      have hev : (⟨i + 1,
          (apply_solution env.writeFails (failSolution env target_command i) project_path st.fs).writes,
          (apply_solution env.writeFails (failSolution env target_command i) project_path st.fs).cmds,
          (apply_solution env.writeFails (failSolution env target_command i) project_path st.fs).ok⟩ : ApplyEvent) =
          failApplyEvent env target_command project_path i := by
        obtain ⟨hw, ho, hc⟩ := apply_solution_trace env.writeFails
          (failSolution env target_command i) project_path st.fs
        rw [failApplyEvent, hw, ho, hc]
      rw [← hev]
      simp [failSolution, List.append_assoc]

/-- `debug_until_working` under an always-failing target command, from an
arbitrary starting state: it returns `false` and extends history, oracle
calls and apply events by exactly one record per budgeted iteration. -/
theorem session_all_fail (env : Env) (target_command project_path cwd : String)
    (maxIter : Nat) (st : SessionState)
    (hfail : ∀ j, (env.exec target_command project_path j).success = false) :
    (debug_until_working env target_command project_path cwd maxIter st).1 = false ∧
    (debug_until_working env target_command project_path cwd maxIter st).2.history =
      st.history ++ (List.range maxIter).map
        (fun k => failEntry env target_command project_path k) ∧
    (debug_until_working env target_command project_path cwd maxIter st).2.oracleCalls.map
        OracleCall.command =
      st.oracleCalls.map OracleCall.command ++ List.replicate maxIter target_command ∧
    (debug_until_working env target_command project_path cwd maxIter st).2.applyEvents =
      st.applyEvents ++ (List.range maxIter).map
        (fun k => failApplyEvent env target_command project_path k) := by
  refine ⟨debug_aux_fail_false env target_command project_path cwd maxIter hfail maxIter 0 st,
    ?_, debug_aux_fail_calls env target_command project_path cwd maxIter hfail maxIter 0 st, ?_⟩
  · have h := debug_aux_fail_history env target_command project_path cwd maxIter hfail maxIter 0 st
    simpa using h
  · have h := debug_aux_fail_events env target_command project_path cwd maxIter hfail maxIter 0 st
    simpa using h

/-! Claim theorems. -/

/-- C7: for every command, working directory and timeout,
`execute_command` never raises (it is a total function into
`CommandResult`); on timeout the result has `success = false`, return code
124 and the timeout description in stderr; on any other execution fault it
has `success = false`, return code 1 and the fault description in stderr;
on normal completion `success` holds exactly when the exit code is 0. -/
theorem execute_command_structured (o : ExecOutcome) (command : String)
    (cwd : Option String) (timeoutSecs : Nat) (processCwd : String) :
    (o = ExecOutcome.timedOut →
      (execute_command o command cwd timeoutSecs processCwd).success = false ∧
      (execute_command o command cwd timeoutSecs processCwd).return_code = 124 ∧
      (execute_command o command cwd timeoutSecs processCwd).stderr =
        "Command timed out after " ++ toString timeoutSecs ++ " seconds") ∧
    (∀ m, o = ExecOutcome.failed m →
      (execute_command o command cwd timeoutSecs processCwd).success = false ∧
      (execute_command o command cwd timeoutSecs processCwd).return_code = 1 ∧
      (execute_command o command cwd timeoutSecs processCwd).stderr = m) ∧
    (∀ out err code, o = ExecOutcome.completed out err code →
      ((execute_command o command cwd timeoutSecs processCwd).success = true ↔ code = 0)) := by
  refine ⟨?_, ?_, ?_⟩
  · rintro rfl; exact ⟨rfl, rfl, rfl⟩
  · rintro m rfl; exact ⟨rfl, rfl, rfl⟩
  · rintro out err code rfl
    simp [execute_command]

/-- Witness for C7: a timed-out command maps to return code 124. -/
theorem execute_command_structured_witness :
    (execute_command ExecOutcome.timedOut "tilt up" none 60 "/app").return_code = 124 :=
  ((execute_command_structured ExecOutcome.timedOut "tilt up" none 60 "/app").1 rfl).2.1

/-- C1 (code bug): the spec requires that every path resolving outside the
project root yields the restricted-access marker, never content. The
source's check is `startswith` on absolute path strings, so a sibling
directory whose absolute path extends the root as a string prefix passes
the check and its file content is returned: with project root `/p/app`,
reading `/p/app2/secret.py` returns the secret content, not the marker.
The spec's own crafted example `../../etc/passwd` is rejected, because
`/etc/passwd` does not extend `/p/app` as a string. -/
theorem read_file_containment_code_bug :
    specInsideRoot "/p/app" "/p/app2/secret.py" = false ∧
    read_file "/" ⟨fun q => if q = "/p/app2/secret.py" then some "SECRET" else none,
      fun _ => none⟩ "/p/app2/secret.py" "/p/app" = "SECRET" ∧
    read_file "/" ⟨fun q => if q = "/p/app2/secret.py" then some "SECRET" else none,
      fun _ => none⟩ "/p/app2/secret.py" "/p/app" ≠
      restrictedFileMsg "/p/app2/secret.py" ∧
    read_file "/" emptyFS "../../etc/passwd" "/p/app" =
      restrictedFileMsg "../../etc/passwd" := by
  refine ⟨by decide, by decide, by decide, by decide⟩

/-- C10: the project-root containment check of `read_file` and
`list_files` is a plain string-prefix comparison of absolute paths;
whenever the resolved path extends the resolved project root as a string
prefix, the content (respectively the directory listing) is returned
rather than the restricted-access marker — even for paths in a sibling
directory of the root. -/
theorem containment_by_startswith
    (cwd project_path file_path dir_path c : String) (children : List String) (fs : FS)
    (hf : strStartsWith (abspath cwd file_path) (abspath cwd project_path) = true)
    (hc : fs.files (normPath (abspath cwd file_path)) = some c)
    (hd : strStartsWith (abspath cwd dir_path) (abspath cwd project_path) = true)
    (hl : fs.dirs (normPath (abspath cwd dir_path)) = some children) :
    read_file cwd fs file_path project_path = c ∧
    list_files cwd fs dir_path project_path =
      "Contents of " ++ dir_path ++ ":\n- " ++ String.intercalate "\n- "
        (children.map (fun f =>
          if fs.isdir (normPath (joinPath (abspath cwd dir_path) f)) then f ++ "/" else f)) := by
  constructor
  · simp [read_file, hf, hc]
  · simp [list_files, hd, hl]

/-- Witness for C10: with root `/home/u/app`, the sibling path
`/home/u/app-backup/key.py` passes the prefix check and its content is
returned. -/
theorem containment_by_startswith_witness :
    read_file "/" ⟨fun q => if q = "/home/u/app-backup/key.py" then some "KEY" else none,
      fun q => if q = "/home/u/app-data" then some ["cfg"] else none⟩
      "/home/u/app-backup/key.py" "/home/u/app" = "KEY" :=
  (containment_by_startswith "/" "/home/u/app" "/home/u/app-backup/key.py"
    "/home/u/app-data" "KEY" ["cfg"]
    ⟨fun q => if q = "/home/u/app-backup/key.py" then some "KEY" else none,
      fun q => if q = "/home/u/app-data" then some ["cfg"] else none⟩
    (by decide) (by decide) (by decide) (by decide)).1

/-- C2: the Remediation Applier's write path performs no project-root
containment check: an entry of `files_to_create`/`files_to_update` whose
resolved target lies outside the project root is still written at that
resolved location (it appears in the write trace, never rejected), while
the Context Extractor's read path rejects the very same path with the
restricted-access marker. -/
theorem apply_writes_escape_root (wf : String → Bool) (solution : Solution)
    (project_path cwd p c : String) (fs fs2 : FS)
    (hmem : (⟨p, c⟩ : FileSpec) ∈ solution.files_to_create ++ solution.files_to_update)
    (hout : strStartsWith (abspath cwd (joinPath project_path p))
      (abspath cwd project_path) = false) :
    (joinPath project_path p, c, !wf (joinPath project_path p)) ∈
      (apply_solution wf solution project_path fs).writes ∧
    read_file cwd fs2 (joinPath project_path p) project_path =
      restrictedFileMsg (joinPath project_path p) := by
  constructor
  · rw [(apply_solution_trace wf solution project_path fs).1]
    exact List.mem_map_of_mem _ hmem
  · simp [read_file, hout]

/-- Witness for C2: an absolute `files_to_create` path `/outside/x.txt`
with project root `/proj` is written at `/outside/x.txt`, which the read
path rejects. -/
theorem apply_writes_escape_root_witness :
    (joinPath "/proj" "/outside/x.txt", "data",
        !(fun _ => false : String → Bool) (joinPath "/proj" "/outside/x.txt")) ∈
      (apply_solution (fun _ => false)
        ⟨"", "FILE_CREATE", [⟨"/outside/x.txt", "data"⟩], [], []⟩ "/proj" emptyFS).writes ∧
    read_file "/" emptyFS (joinPath "/proj" "/outside/x.txt") "/proj" =
      restrictedFileMsg (joinPath "/proj" "/outside/x.txt") :=
  apply_writes_escape_root (fun _ => false)
    ⟨"", "FILE_CREATE", [⟨"/outside/x.txt", "data"⟩], [], []⟩
    "/proj" "/" "/outside/x.txt" "data" emptyFS emptyFS (by decide) (by decide)

/-- C6: `apply_solution` is best-effort and order-preserving: the write
trace is every `files_to_create` entry then every `files_to_update` entry
in the given order, each attempted regardless of earlier failures; the
overall result is the conjunction of the write successes; every auxiliary
command is recorded sequentially against the project root and affects
neither later commands nor the result; and for creates `[A, B]` with
update `[B]`, afterwards `B` holds the update's content and `A` its create
content. -/
theorem apply_solution_best_effort (wf : String → Bool) (project_path : String)
    (solution : Solution) (fs : FS) (A B cA cB cB2 : String) (cmds : List String)
    (hA : wf (joinPath project_path A) = false)
    (hB : wf (joinPath project_path B) = false)
    (hAB : normPath (joinPath project_path A) ≠ normPath (joinPath project_path B)) :
    (apply_solution wf solution project_path fs).writes =
      (solution.files_to_create ++ solution.files_to_update).map
        (fun f => (joinPath project_path f.path, f.content,
          !wf (joinPath project_path f.path))) ∧
    (apply_solution wf solution project_path fs).ok =
      (solution.files_to_create ++ solution.files_to_update).all
        (fun f => !wf (joinPath project_path f.path)) ∧
    (apply_solution wf solution project_path fs).cmds =
      solution.commands_to_run.map (fun c => (c, project_path)) ∧
    (apply_solution wf ⟨"", "FILE_CREATE", [⟨A, cA⟩, ⟨B, cB⟩], [⟨B, cB2⟩], cmds⟩
        project_path fs).fs.files (normPath (joinPath project_path B)) = some cB2 ∧
    (apply_solution wf ⟨"", "FILE_CREATE", [⟨A, cA⟩, ⟨B, cB⟩], [⟨B, cB2⟩], cmds⟩
        project_path fs).fs.files (normPath (joinPath project_path A)) = some cA := by
  obtain ⟨hw, ho, hc⟩ := apply_solution_trace wf solution project_path fs
  refine ⟨hw, ho, hc, ?_, ?_⟩
  · simp [apply_solution, applyFiles, write_file, hA, hB]
  · simp [apply_solution, applyFiles, write_file, hA, hB, hAB]

/-- Witness for C6: in the create-create-update scenario the updated file
ends with the update's content. -/
theorem apply_solution_best_effort_witness :
    (apply_solution (fun _ => false)
        ⟨"", "FILE_CREATE", [⟨"a.txt", "one"⟩, ⟨"b.txt", "two"⟩], [⟨"b.txt", "three"⟩], []⟩
        "/r" emptyFS).fs.files (normPath (joinPath "/r" "b.txt")) = some "three" :=
  (apply_solution_best_effort (fun _ => false) "/r" ⟨"", "", [], [], []⟩ emptyFS
    "a.txt" "b.txt" "one" "two" "three" [] rfl rfl (by decide)).2.2.2.1

/-- C9: context extraction is idempotent: two runs on identical failure
text, target command, project root, iteration counters and filesystem
state produce character-for-character identical ContextBundle text (the
extraction is a pure function of these inputs; within one process the
source's set iteration order is likewise fixed). -/
theorem extractContext_idempotent (cwd₁ cwd₂ : String) (fs₁ fs₂ : FS)
    (t₁ t₂ r₁ r₂ : String) (i₁ i₂ m₁ m₂ : Nat) (e₁ e₂ : String)
    (hcwd : cwd₁ = cwd₂) (hfs : fs₁ = fs₂) (ht : t₁ = t₂) (hr : r₁ = r₂)
    (hi : i₁ = i₂) (hm : m₁ = m₂) (he : e₁ = e₂) :
    extractContext cwd₁ fs₁ t₁ r₁ i₁ m₁ e₁ = extractContext cwd₂ fs₂ t₂ r₂ i₂ m₂ e₂ := by
  subst hcwd; subst hfs; subst ht; subst hr; subst hi; subst hm; subst he; rfl

/-- Witness for C9: a repeated extraction on a concrete input. -/
theorem extractContext_idempotent_witness :
    extractContext "/" emptyFS "make test" "/proj" 0 10 "fail" =
      extractContext "/" emptyFS "make test" "/proj" 0 10 "fail" :=
  extractContext_idempotent "/" "/" emptyFS emptyFS "make test" "make test"
    "/proj" "/proj" 0 0 10 10 "fail" "fail" rfl rfl rfl rfl rfl rfl rfl

/-- C4 (counterexample): a path-like token naming a file that does not
exist under the project root yields no explicit "not found" marker — the
assembled ContextBundle silently omits it. Here `missing.py` is recognised
in the failure output and does not exist, yet the bundle contains neither
the string "not found" nor even the path itself. -/
theorem missing_file_silently_omitted :
    "missing.py" ∈ filesToRead "run" "Traceback: missing.py not loaded" ∧
    emptyFS.pathExists (normPath (joinPath "/proj" "missing.py")) = false ∧
    strContains (extractContext "/" emptyFS "run" "/proj" 0 3
      "Traceback: missing.py not loaded") "not found" = false ∧
    strContains (extractContext "/" emptyFS "run" "/proj" 0 3
      "Traceback: missing.py not loaded") "missing.py" = false := by
  refine ⟨by decide, by decide, by decide, by decide⟩

/-- C4 (amended): recognised path-like tokens and directory mentions that
do not exist under the project root are silently omitted from the
ContextBundle: the bundle renders a block exactly for those candidates
that pass the `os.path.exists` / `os.path.isdir` guard, missing ones
contribute no text and no marker (only the section header betrays that
candidates were found); `read_file`'s not-found marker is unreachable from
this call site because the existence guard precedes every read. -/
theorem extractContext_renders_only_existing (cwd : String) (fs : FS)
    (target_command project_path : String) (iteration maxIter : Nat)
    (error_output : String) :
    extractContext cwd fs target_command project_path iteration maxIter error_output =
      contextHeader iteration maxIter target_command ++
      (if (filesToRead target_command error_output).isEmpty then ""
       else "\n\nRELEVANT FILE CONTENTS (truncated to 1000 chars):\n" ++
         concatList (((filesToRead target_command error_output).filter
             (fun f => fs.pathExists (normPath (joinPath project_path f)))).map
           (renderFileBlock cwd fs project_path))) ++
      (if (dirsToList error_output).isEmpty then ""
       else "\n\nDIRECTORY LISTINGS:\n" ++
         concatList (((dirsToList error_output).filter
             (fun d => fs.isdir (normPath (joinPath project_path d)))).map
           (renderDirBlock cwd fs project_path))) := by
  unfold extractContext fileSectionText dirSectionText
  rw [concatList_map_ite_filter, concatList_map_ite_filter]

/-- C5: for every fresh session in which the target command fails on all
`maxIterations` iterations, `debug_until_working` returns false and the
history has length exactly `maxIterations`, with each entry's iteration
field equal to its 1-based position (strictly increasing from 1). -/
theorem session_exhaustion_history (env : Env) (target_command project_path cwd : String)
    (maxIter : Nat) (fs0 : FS)
    (hfail : ∀ j, (env.exec target_command project_path j).success = false) :
    (debug_until_working env target_command project_path cwd maxIter
      (freshState fs0)).1 = false ∧
    (debug_until_working env target_command project_path cwd maxIter
      (freshState fs0)).2.history.length = maxIter ∧
    ∀ k, k < maxIter →
      ((debug_until_working env target_command project_path cwd maxIter
        (freshState fs0)).2.history.get? k).map HistoryEntry.iteration = some (k + 1) := by
  obtain ⟨h1, h2, h3, h4⟩ :=
    session_all_fail env target_command project_path cwd maxIter (freshState fs0) hfail
  refine ⟨h1, ?_, ?_⟩
  · rw [h2]; simp [freshState]
  · intro k hk
    rw [h2]
    simp only [freshState, List.nil_append, List.get?_map, List.get?_range hk,
      Option.map_some]
    rfl

/-- Witness for C5: two failing iterations leave a history of length 2. -/
theorem session_exhaustion_history_witness :
    (debug_until_working allFailEnv "make test" "/proj" "/" 2
      (freshState emptyFS)).2.history.length = 2 :=
  (session_exhaustion_history allFailEnv "make test" "/proj" "/" 2 emptyFS
    (fun _ => rfl)).2.1

/-- C3 (counterexample): when the Diagnosis Oracle's response cannot be
parsed twice, `apply_solution` IS still called — the degraded iteration
records exactly one apply invocation (with empty write and command traces)
— contradicting the claim that apply() is never called; the history entry
records solutionType MANUAL_ANALYSIS. -/
theorem apply_called_on_degraded :
    (debug_until_working allFailEnv "run" "/proj" "/" 1
      (freshState emptyFS)).2.applyEvents = [⟨1, [], [], true⟩] ∧
    (debug_until_working allFailEnv "run" "/proj" "/" 1
      (freshState emptyFS)).2.history.map (fun e => e.solution.solution_type) =
      ["MANUAL_ANALYSIS"] := by
  refine ⟨by decide, by decide⟩

/-- C3 (amended): if the oracle's response cannot be parsed as structured
JSON on the first attempt and again after one retry, the iteration is an
effective no-op: `apply_solution` is called on the degraded remediation
but writes no files and runs no commands (and reports success), a
HistoryEntry for the iteration is still appended recording the degraded
remediation (solutionType MANUAL_ANALYSIS or ERROR), and the loop
continues through its budget rather than crashing. -/
theorem degraded_iteration_noop (env : Env) (target_command project_path cwd : String)
    (maxIter i : Nat) (fs0 : FS)
    (hfail : ∀ j, (env.exec target_command project_path j).success = false)
    (hi : i < maxIter)
    (h1 : (env.parse target_command i).1.isOk = false)
    (h2 : (env.parse target_command i).2.isOk = false) :
    (debug_until_working env target_command project_path cwd maxIter
      (freshState fs0)).2.applyEvents.get? i = some ⟨i + 1, [], [], true⟩ ∧
    ((debug_until_working env target_command project_path cwd maxIter
      (freshState fs0)).2.history.get? i).map HistoryEntry.solution =
      some (failSolution env target_command i) ∧
    (failSolution env target_command i = manualAnalysisSolution ∨
      failSolution env target_command i = errorSolution) ∧
    (debug_until_working env target_command project_path cwd maxIter
      (freshState fs0)).2.history.length = maxIter ∧
    (debug_until_working env target_command project_path cwd maxIter
      (freshState fs0)).1 = false := by
  obtain ⟨hf1, hf2, hf3, hf4⟩ :=
    session_all_fail env target_command project_path cwd maxIter (freshState fs0) hfail
  have hsol : failSolution env target_command i = manualAnalysisSolution ∨
      failSolution env target_command i = errorSolution := analyze_degraded _ _ h1 h2
  refine ⟨?_, ?_, hsol, ?_, hf1⟩
  · rw [hf4]
    simp only [freshState, List.nil_append, List.get?_map, List.get?_range hi,
      Option.map_some]
    rcases hsol with h | h <;>
      simp [failApplyEvent, h, manualAnalysisSolution, errorSolution]
  · rw [hf2]
    simp only [freshState, List.nil_append, List.get?_map, List.get?_range hi,
      Option.map_some]
    rfl
  · rw [hf2]; simp [freshState]

/-- Witness for C3's amended theorem: a concrete degraded iteration. -/
theorem degraded_iteration_noop_witness :
    (debug_until_working allFailEnv "npm install" "/w" "/" 2
      (freshState emptyFS)).2.applyEvents.get? 0 = some ⟨1, [], [], true⟩ :=
  (degraded_iteration_noop allFailEnv "npm install" "/w" "/" 2 0 emptyFS
    (fun _ => rfl) (by omega) rfl rfl).1

/-- C8 (counterexample): the checklist sessions of the comprehensive
variant are not independent: they share the agent's `debug_history`. With
every command failing and a one-iteration budget, the first oracle call of
the second checklist item ("npm install") already receives the history
entry recorded by the first item ("go mod tidy"). -/
theorem comprehensive_shares_history :
    ((run_comprehensive_debug allFailEnv "/proj" "/" 1
      (freshState emptyFS)).2.oracleCalls.map
      (fun c => (c.command, c.recentHistory.map HistoryEntry.command))).get? 1 =
      some ("npm install", ["go mod tidy"]) := by
  decide

/-- C8 (amended): the comprehensive variant runs its fixed checklist of
target commands sequentially and never short-circuits — every checklist
item is attempted and assigned a boolean in the result map regardless of
earlier items' failures (under an always-failing environment all seven
booleans are false and each item's target is consulted on every budgeted
iteration) — but the sessions are not independent: they share the agent's
`debug_history`, which accumulates across all eight sessions to length
`8 * maxIterations`. -/
theorem comprehensive_no_short_circuit (env : Env) (project_path cwd : String)
    (maxIter : Nat) (fs0 : FS)
    (hfail : ∀ c w j, (env.exec c w j).success = false) :
    (run_comprehensive_debug env project_path cwd maxIter (freshState fs0)).1 =
      ⟨false, false, false, false, false, false, false⟩ ∧
    (run_comprehensive_debug env project_path cwd maxIter
        (freshState fs0)).2.oracleCalls.map OracleCall.command =
      List.replicate maxIter "go mod tidy" ++ List.replicate maxIter "npm install" ++
      List.replicate maxIter "cd backend && go build" ++
      List.replicate maxIter "cd frontend && npm run build" ++
      List.replicate maxIter "tilt doctor" ++
      List.replicate maxIter backendStartupCommand ++
      List.replicate maxIter frontendStartupCommand ++
      List.replicate maxIter "make test" ∧
    (run_comprehensive_debug env project_path cwd maxIter
        (freshState fs0)).2.history.length = 8 * maxIter := by
  have hall : ∀ (tc pp : String) (st : SessionState),
      (debug_until_working env tc pp cwd maxIter st).1 = false ∧
      (debug_until_working env tc pp cwd maxIter st).2.history =
        st.history ++ (List.range maxIter).map (fun k => failEntry env tc pp k) ∧
      (debug_until_working env tc pp cwd maxIter st).2.oracleCalls.map
          OracleCall.command =
        st.oracleCalls.map OracleCall.command ++ List.replicate maxIter tc ∧
      (debug_until_working env tc pp cwd maxIter st).2.applyEvents =
        st.applyEvents ++ (List.range maxIter).map (fun k => failApplyEvent env tc pp k) :=
    fun tc pp st => session_all_fail env tc pp cwd maxIter st (fun j => hfail tc pp j)
  simp only [run_comprehensive_debug]
  obtain ⟨a1, b1, c1, d1⟩ := hall "go mod tidy" (joinPath project_path "backend")
    (freshState fs0)
  set s1 := (debug_until_working env "go mod tidy" (joinPath project_path "backend")
    cwd maxIter (freshState fs0)).2 with hs1
  obtain ⟨a2, b2, c2, d2⟩ := hall "npm install" (joinPath project_path "frontend") s1
  set s2 := (debug_until_working env "npm install" (joinPath project_path "frontend")
    cwd maxIter s1).2 with hs2
  obtain ⟨a3, b3, c3, d3⟩ := hall "cd backend && go build" project_path s2
  set s3 := (debug_until_working env "cd backend && go build" project_path
    cwd maxIter s2).2 with hs3
  obtain ⟨a4, b4, c4, d4⟩ := hall "cd frontend && npm run build" project_path s3
  set s4 := (debug_until_working env "cd frontend && npm run build" project_path
    cwd maxIter s3).2 with hs4
  obtain ⟨a5, b5, c5, d5⟩ := hall "tilt doctor" project_path s4
  set s5 := (debug_until_working env "tilt doctor" project_path cwd maxIter s4).2
    with hs5
  obtain ⟨a6, b6, c6, d6⟩ := hall backendStartupCommand project_path s5
  set s6 := (debug_until_working env backendStartupCommand project_path
    cwd maxIter s5).2 with hs6
  obtain ⟨a7, b7, c7, d7⟩ := hall frontendStartupCommand project_path s6
  set s7 := (debug_until_working env frontendStartupCommand project_path
    cwd maxIter s6).2 with hs7
  obtain ⟨a8, b8, c8, d8⟩ := hall "make test" project_path s7
  refine ⟨?_, ?_, ?_⟩
  · rw [a1, a2, a3, a4, a5, a6, a7, a8]
    rfl
  · rw [c8, c7, c6, c5, c4, c3, c2, c1]
    simp [freshState, List.append_assoc]
  · rw [b8, b7, b6, b5, b4, b3, b2, b1]
    simp only [freshState, List.nil_append, List.length_append, List.length_map,
      List.length_range]
    omega

/-- Witness for C8's amended theorem: all seven checklist booleans are
assigned (all false) under an always-failing environment. -/
theorem comprehensive_no_short_circuit_witness :
    (run_comprehensive_debug allFailEnv "/x" "/" 1 (freshState emptyFS)).1 =
      ⟨false, false, false, false, false, false, false⟩ :=
  (comprehensive_no_short_circuit allFailEnv "/x" "/" 1 emptyFS
    (fun _ _ _ => rfl)).1

end Langest
